import Mathlib

/-!
Shallow embedding of `mq_render_area_2d` (src/src/lib.rs), a macroquad
virtual 2D render area.  `f32` values are modelled by exact rationals `ℚ`
(the spec's statements are over real arithmetic "modulo floating point");
`u16`/`u8` by `ℕ` with the casts made explicit.  The Rust float-to-integer
`as u8` cast saturates (Rust >= 1.45), modelled by `f32_as_u8`.  For the
claim about IEEE division by zero, a small extended-float type `F` with the
IEEE special-value rules for subtraction, addition and division is used.
-/

namespace MqRenderArea2D

/-- Model of macroquad's `Vec2`: a pair of `f32`, modelled as rationals. -/
structure Vec2 where
  x : ℚ
  y : ℚ
deriving DecidableEq, Repr

/-- Model of macroquad's `vec2` constructor. -/
def vec2 (x y : ℚ) : Vec2 := ⟨x, y⟩

/-- Componentwise addition of `Vec2` (macroquad's `+` / `+=`). -/
def Vec2.add (a b : Vec2) : Vec2 := ⟨a.x + b.x, a.y + b.y⟩

/-- Componentwise subtraction of `Vec2` (macroquad's `-`). -/
def Vec2.sub (a b : Vec2) : Vec2 := ⟨a.x - b.x, a.y - b.y⟩

/-- Model of macroquad's `Camera2D`: the fields the library touches
(`render_target` is an opaque handle and is omitted; `rotation` and
`offset` come from `Default::default()`). -/
structure Camera2D where
  target : Vec2
  zoom : Vec2
  rotation : ℚ
  offset : Vec2
deriving DecidableEq, Repr

/-- Host-renderer environment read by the library: `screen_width()`,
`screen_height()` and `mouse_position()`. -/
structure Env where
  screen_width : ℚ
  screen_height : ℚ
  mouse_x : ℚ
  mouse_y : ℚ
deriving DecidableEq, Repr

/-- The `RenderArea2D` struct (the opaque `render_target` handle omitted).
`width`, `height` are `u16` and `scale` is `u8`, modelled as `ℕ`. -/
structure RenderArea2D where
  width : ℕ
  height : ℕ
  scale : ℕ
  camera : Camera2D
deriving DecidableEq, Repr

/-- The free function `target(width, height)` from the source:
`vec2(f32::from(width) / 2.0, f32::from(height) / 2.0)`. -/
def target (width height : ℕ) : Vec2 :=
  vec2 ((width : ℚ) / 2) ((height : ℚ) / 2)

/-- Rust's saturating float-to-`u8` cast `as u8`: truncate toward zero and
clamp into `[0, 255]` (Rust reference; saturating casts since Rust 1.45). -/
def f32_as_u8 (q : ℚ) : ℕ :=
  if q < 0 then 0 else min 255 (Int.toNat ⌊q⌋)

/-- `RenderArea2D::auto_scale`: the smaller of the horizontal and
vertical window-to-surface ratios, cast to `u8`. -/
def auto_scale (ra : RenderArea2D) (env : Env) : ℕ :=
  let hor := env.screen_width / (ra.width : ℚ)
  let ver := env.screen_height / (ra.height : ℚ)
  f32_as_u8 (if hor < ver then hor else ver)

/-- `RenderArea2D::set_scale`. -/
def set_scale (ra : RenderArea2D) (amount : ℕ) : RenderArea2D :=
  { ra with scale := amount }

/-- `RenderArea2D::set_scale_auto`. -/
def set_scale_auto (ra : RenderArea2D) (env : Env) : RenderArea2D :=
  { ra with scale := auto_scale ra env }

/-- `RenderArea2D::scale`. -/
def scale (ra : RenderArea2D) : ℕ := ra.scale

/-- `RenderArea2D::new`: build the camera with
`zoom = (2/width, 2/height)` and `target = target(width, height)`
(other camera fields from `Default::default()`), start from `scale = 0`
and run `set_scale_auto` against the window size at construction time. -/
def new (width height : ℕ) (env : Env) : RenderArea2D :=
  let cam : Camera2D :=
    { target := target width height
      zoom := vec2 (2 / (width : ℚ)) (2 / (height : ℚ))
      rotation := 0
      offset := vec2 0 0 }
  let s : RenderArea2D :=
    { width := width, height := height, scale := 0, camera := cam }
  set_scale_auto s env

/-- The private `RenderArea2D::screen_offset`: the letterbox offsets. -/
def screen_offset (ra : RenderArea2D) (env : Env) : ℚ × ℚ :=
  ((env.screen_width - (ra.width : ℚ) * (ra.scale : ℚ)) / 2,
   (env.screen_height - (ra.height : ℚ) * (ra.scale : ℚ)) / 2)

/-- Model of macroquad's `Color` (r, g, b, a as `f32`). -/
structure Color where
  r : ℚ
  g : ℚ
  b : ℚ
  a : ℚ
deriving DecidableEq, Repr

/-- Macroquad's `WHITE` constant: opaque white. -/
def WHITE : Color := ⟨1, 1, 1, 1⟩

/-- One `draw_texture_ex` call: position, color modulation and the
`dest_size` field of `DrawTextureParams` (the other params are defaulted
in the source). -/
structure DrawTextureCmd where
  x : ℚ
  y : ℚ
  color : Color
  dest_size : Option Vec2
deriving DecidableEq, Repr

/-- `RenderArea2D::draw`: the list of texture draws emitted (the source
makes exactly one `draw_texture_ex` call). -/
def draw (ra : RenderArea2D) (env : Env) : List DrawTextureCmd :=
  let dest := vec2 ((ra.width : ℚ) * (ra.scale : ℚ))
                   ((ra.height : ℚ) * (ra.scale : ℚ))
  let off := screen_offset ra env
  [{ x := off.1, y := off.2, color := WHITE, dest_size := some dest }]

/-- `RenderArea2D::mouse_position`: window mouse position translated into
render-area coordinates. -/
def mouse_position (ra : RenderArea2D) (env : Env) : ℚ × ℚ :=
  let off := screen_offset ra env
  ((env.mouse_x - off.1) / (ra.scale : ℚ),
   (env.mouse_y - off.2) / (ra.scale : ℚ))

/-- `RenderArea2D::mouse_position_cam`: `mouse_position` plus the camera
offset `camera.target - target(width, height)`. -/
def mouse_position_cam (ra : RenderArea2D) (env : Env) : ℚ × ℚ :=
  let m := mouse_position ra env
  let offs := Vec2.sub ra.camera.target (target ra.width ra.height)
  (m.1 + offs.x, m.2 + offs.y)

/-- `RenderArea2D::move_camera`: `camera.target += vec2(x, y)`. -/
def move_camera (ra : RenderArea2D) (x y : ℚ) : RenderArea2D :=
  { ra with camera :=
      { ra.camera with target := Vec2.add ra.camera.target (vec2 x y) } }

/-- `RenderArea2D::center_camera`: `camera.target = vec2(x + 16, y + 16)`. -/
def center_camera (ra : RenderArea2D) (x y : ℚ) : RenderArea2D :=
  { ra with camera := { ra.camera with target := vec2 (x + 16) (y + 16) } }

/-- The public operations of `RenderArea2D` that can run after
construction. -/
inductive Op where
  | set
  | set_scale (amount : ℕ)
  | set_scale_auto
  | draw
  | mouse_position
  | mouse_position_cam
  | move_camera (dx dy : ℚ)
  | center_camera (x y : ℚ)
deriving DecidableEq, Repr

/-- Effect of one public operation on the `RenderArea2D` state.  `set`,
`draw`, `mouse_position` and `mouse_position_cam` take `&self` in the
source and cannot change the state. -/
def stepRA (ra : RenderArea2D) (env : Env) : Op → RenderArea2D
  | .set => ra
  | .set_scale a => set_scale ra a
  | .set_scale_auto => set_scale_auto ra env
  | .draw => ra
  | .mouse_position => ra
  | .mouse_position_cam => ra
  | .move_camera dx dy => move_camera ra dx dy
  | .center_camera x y => center_camera ra x y

/-- Run a sequence of public operations, each against its own
host-renderer environment. -/
def runOps (ra : RenderArea2D) : List (Env × Op) → RenderArea2D
  | [] => ra
  | (env, op) :: rest => runOps (stepRA ra env op) rest

/-- Extended `f32` value: finite (exact rational), signed infinity, or
NaN.  Used to model the IEEE special-value behavior of the divisions in
`mouse_position` when `scale == 0`. -/
inductive F where
  | fin : ℚ → F
  | inf : Bool → F
  | nan : F
deriving DecidableEq, Repr

/-- IEEE subtraction on extended floats (finite arithmetic exact,
overflow ignored). -/
def F.sub : F → F → F
  | .nan, _ => .nan
  | _, .nan => .nan
  | .fin a, .fin b => .fin (a - b)
  | .fin _, .inf s => .inf (!s)
  | .inf s, .fin _ => .inf s
  | .inf s, .inf t => if s = t then .nan else .inf s

/-- IEEE addition on extended floats (finite arithmetic exact,
overflow ignored). -/
def F.add : F → F → F
  | .nan, _ => .nan
  | _, .nan => .nan
  | .fin a, .fin b => .fin (a + b)
  | .fin _, .inf s => .inf s
  | .inf s, .fin _ => .inf s
  | .inf s, .inf t => if s = t then .inf s else .nan

/-- IEEE division on extended floats: `x / 0` is NaN when `x = 0` and a
signed infinity otherwise; finite arithmetic is exact. -/
def F.div : F → F → F
  | .nan, _ => .nan
  | _, .nan => .nan
  | .fin a, .fin b =>
      if b = 0 then (if a = 0 then .nan else .inf (decide (a < 0)))
      else .fin (a / b)
  | .inf s, .fin b => .inf (xor s (decide (b < 0)))
  | .fin _, .inf _ => .fin 0
  | .inf _, .inf _ => .nan

/-- Whether an extended float is finite. -/
def F.isFinite : F → Bool
  | .fin _ => true
  | _ => false

/-- `RenderArea2D::mouse_position` with the two divisions carried out in
extended-float arithmetic, so the IEEE behavior at `scale == 0` is
visible.  Window and mouse queries return finite `f32` values, and the
letterbox offsets are finite arithmetic on them. -/
def mouse_positionE (ra : RenderArea2D) (env : Env) : F × F :=
  let off := screen_offset ra env
  (F.div (F.sub (F.fin env.mouse_x) (F.fin off.1)) (F.fin (ra.scale : ℚ)),
   F.div (F.sub (F.fin env.mouse_y) (F.fin off.2)) (F.fin (ra.scale : ℚ)))

/-- `RenderArea2D::mouse_position_cam` in extended-float arithmetic:
`mouse_positionE` plus the finite camera offset. -/
def mouse_position_camE (ra : RenderArea2D) (env : Env) : F × F :=
  let m := mouse_positionE ra env
  let offs := Vec2.sub ra.camera.target (target ra.width ra.height)
  (F.add m.1 (F.fin offs.x), F.add m.2 (F.fin offs.y))

/-- Concrete camera used by test states below. -/
def cam0 : Camera2D :=
  { target := vec2 200 150
    zoom := vec2 (2 / 400) (2 / 300)
    rotation := 0
    offset := vec2 0 0 }

/-- Concrete render area: 400x300 at scale 2. -/
def ra0 : RenderArea2D := ⟨400, 300, 2, cam0⟩

/-- Concrete render area: 400x300 at scale 0. -/
def ra00 : RenderArea2D := ⟨400, 300, 0, cam0⟩

/-- Concrete render area: 1x1 at scale 0 (a degenerate surface that any
sizeable window overshoots). -/
def ra1 : RenderArea2D := ⟨1, 1, 0, cam0⟩

/-- Concrete environment: an 800x600 window, mouse at the origin. -/
def env0 : Env := ⟨800, 600, 0, 0⟩

/-- The source's `if hor < ver then hor else ver` is the minimum. -/
theorem ite_lt_eq_min (a b : ℚ) : (if a < b then a else b) = min a b := by
  rcases lt_or_ge a b with h | h
  · simp [h, min_eq_left h.le]
  · simp [not_lt.mpr h, min_eq_right h]

/-- No single public operation changes the camera zoom. -/
theorem stepRA_zoom (ra : RenderArea2D) (env : Env) (op : Op) :
    (stepRA ra env op).camera.zoom = ra.camera.zoom := by
  cases op <;> rfl

/-- No sequence of public operations changes the camera zoom. -/
theorem runOps_zoom (ops : List (Env × Op)) (ra : RenderArea2D) :
    (runOps ra ops).camera.zoom = ra.camera.zoom := by
  induction ops generalizing ra with
  | nil => rfl
  | cons p rest ih =>
      cases p with
      | mk env op => rw [runOps, ih, stepRA_zoom]

/-- Division of a finite float by literal zero is never finite (it is NaN
when the numerator is zero and a signed infinity otherwise). -/
theorem div_fin_zero_not_finite (a : ℚ) :
    (F.div (F.fin a) (F.fin 0)).isFinite = false := by
  by_cases h : a = 0 <;> simp [F.div, F.isFinite, h]

/-- Adding a finite float to a non-finite float stays non-finite. -/
theorem add_fin_not_finite (x : F) (c : ℚ) (h : x.isFinite = false) :
    (F.add x (F.fin c)).isFinite = false := by
  cases x <;> simp_all [F.add, F.isFinite]

/-- Claim C1: for every render area constructed with positive width and
height, `camera.zoom` equals `(2/W, 2/H)` immediately after construction
and after any sequence of the public operations; no operation modifies
`camera.zoom`. -/
theorem camera_zoom_invariant (W H : ℕ) (hW : 0 < W) (hH : 0 < H)
    (envC : Env) (ops : List (Env × Op)) :
    (runOps (new W H envC) ops).camera.zoom
      = vec2 (2 / (W : ℚ)) (2 / (H : ℚ)) := by
  rw [runOps_zoom]
  rfl

/-- Claim C1, witness: the invariant at a 400x300 render area after a
camera move and an auto rescale. -/
theorem camera_zoom_invariant_witness :
    0 < 400 ∧ 0 < 300 ∧
    (runOps (new 400 300 env0)
        [(env0, Op.move_camera 3 4), (⟨1000, 600, 5, 6⟩, Op.set_scale_auto)]).camera.zoom
      = vec2 (2 / ((400 : ℕ) : ℚ)) (2 / ((300 : ℕ) : ℚ)) :=
  ⟨by decide, by decide,
   camera_zoom_invariant 400 300 (by decide) (by decide) env0 _⟩

/-- Claim C2, counterexample: with a 1x1 surface and a 300x300 window the
ratio minimum is 300, whose truncation is 300, but `auto_scale` returns
255 (the Rust float-to-`u8` cast saturates), so `auto_scale` is not the
truncation of the ratio minimum for every window size. -/
theorem auto_scale_not_truncation :
    auto_scale ra1 ⟨300, 300, 0, 0⟩
      ≠ Int.toNat ⌊min ((300 : ℚ) / ((1 : ℕ) : ℚ)) ((300 : ℚ) / ((1 : ℕ) : ℚ))⌋ := by
  norm_num [auto_scale, f32_as_u8, ra1,
    show Int.toNat 300 = 300 from rfl]

/-- Claim C2, amended: `auto_scale` is the truncation of
`min(Ww/W, Wh/H)` clamped to 255; it is 0 when the window is smaller than
the surface in either dimension, and at least 1 when the window covers
the surface in both dimensions. -/
theorem auto_scale_spec (ra : RenderArea2D) (env : Env)
    (hW : 0 < ra.width) (hH : 0 < ra.height)
    (hw : 0 ≤ env.screen_width) (hh : 0 ≤ env.screen_height) :
    auto_scale ra env
      = min 255 (Int.toNat ⌊min (env.screen_width / (ra.width : ℚ))
                               (env.screen_height / (ra.height : ℚ))⌋)
    ∧ (env.screen_width < (ra.width : ℚ) ∨ env.screen_height < (ra.height : ℚ)
        → auto_scale ra env = 0)
    ∧ ((ra.width : ℚ) ≤ env.screen_width → (ra.height : ℚ) ≤ env.screen_height
        → 1 ≤ auto_scale ra env) := by
  have hW' : (0 : ℚ) < (ra.width : ℚ) := by exact_mod_cast hW
  have hH' : (0 : ℚ) < (ra.height : ℚ) := by exact_mod_cast hH
  set hor := env.screen_width / (ra.width : ℚ) with hhor
  set ver := env.screen_height / (ra.height : ℚ) with hver
  have hornn : 0 ≤ hor := div_nonneg hw hW'.le
  have vernn : 0 ≤ ver := div_nonneg hh hH'.le
  have hmnn : 0 ≤ min hor ver := le_min hornn vernn
  have hmain : auto_scale ra env = min 255 (Int.toNat ⌊min hor ver⌋) := by
    rw [auto_scale, f32_as_u8]
    rw [ite_lt_eq_min]
    rw [if_neg (not_lt.mpr hmnn)]
  refine ⟨hmain, ?_, ?_⟩
  · intro hlt
    have hm1 : min hor ver < 1 := by
      rcases hlt with hlt | hlt
      · exact lt_of_le_of_lt (min_le_left _ _)
          ((div_lt_one hW').mpr hlt)
      · exact lt_of_le_of_lt (min_le_right _ _)
          ((div_lt_one hH').mpr hlt)
    have hfl : ⌊min hor ver⌋ = 0 :=
      Int.floor_eq_zero_iff.mpr ⟨hmnn, hm1⟩
    rw [hmain, hfl]
    rfl
  · intro h1 h2
    have hor1 : (1 : ℚ) ≤ hor := (one_le_div hW').mpr h1
    have ver1 : (1 : ℚ) ≤ ver := (one_le_div hH').mpr h2
    have hm1 : (1 : ℚ) ≤ min hor ver := le_min hor1 ver1
    have hfl : (1 : ℤ) ≤ ⌊min hor ver⌋ := by
      rw [Int.le_floor]
      exact_mod_cast hm1
    rw [hmain]
    refine le_min (by norm_num) ?_
    omega

/-- Claim C2, witness: the amended statement at a 400x300 surface against
an 800x600 window. -/
theorem auto_scale_spec_witness :
    0 < ra0.width ∧ 0 < ra0.height
    ∧ 0 ≤ env0.screen_width ∧ 0 ≤ env0.screen_height
    ∧ auto_scale ra0 env0
        = min 255 (Int.toNat ⌊min (env0.screen_width / (ra0.width : ℚ))
                                 (env0.screen_height / (ra0.height : ℚ))⌋) :=
  ⟨by decide, by decide, by norm_num [env0], by norm_num [env0],
   (auto_scale_spec ra0 env0 (by decide) (by decide)
      (by norm_num [env0]) (by norm_num [env0])).1⟩

/-- Claim C3, counterexample: with a 1x1 surface and a 400x400 window the
ratio minimum is 400; wrapping modulo 256 would give 144, but
`auto_scale` returns 255, so the cast does not wrap. -/
theorem auto_scale_not_wrapping :
    auto_scale ra1 ⟨400, 400, 0, 0⟩ = 255 ∧ (400 : ℕ) % 256 = 144
    ∧ auto_scale ra1 ⟨400, 400, 0, 0⟩ ≠ 400 % 256 := by
  refine ⟨?_, by norm_num, ?_⟩ <;>
    norm_num [auto_scale, f32_as_u8, ra1,
      show Int.toNat 400 = 400 from rfl]

/-- Claim C3, amended: when the ratio minimum is at least 256 the
float-to-`u8` conversion in `auto_scale` saturates (clamps) to 255, the
greatest `u8` value, rather than wrapping modulo 256. -/
theorem auto_scale_saturates (ra : RenderArea2D) (env : Env)
    (h : (256 : ℚ) ≤ min (env.screen_width / (ra.width : ℚ))
                         (env.screen_height / (ra.height : ℚ))) :
    auto_scale ra env = 255 := by
  have hmnn : 0 ≤ min (env.screen_width / (ra.width : ℚ))
                      (env.screen_height / (ra.height : ℚ)) :=
    le_trans (by norm_num) h
  have hfl : (256 : ℤ) ≤ ⌊min (env.screen_width / (ra.width : ℚ))
                             (env.screen_height / (ra.height : ℚ))⌋ := by
    rw [Int.le_floor]
    exact_mod_cast h
  rw [auto_scale, f32_as_u8, ite_lt_eq_min, if_neg (not_lt.mpr hmnn)]
  omega

/-- Claim C3, witness: saturation at a 1x1 surface in a 500x500 window. -/
theorem auto_scale_saturates_witness :
    (256 : ℚ) ≤ min ((500 : ℚ) / ((ra1.width : ℕ) : ℚ))
                    ((500 : ℚ) / ((ra1.height : ℕ) : ℚ))
    ∧ auto_scale ra1 ⟨500, 500, 0, 0⟩ = 255 :=
  ⟨by norm_num [ra1],
   auto_scale_saturates ra1 ⟨500, 500, 0, 0⟩ (by norm_num [ra1])⟩

/-- Claim C4: `draw` emits exactly one textured-quad draw of the target,
destination size `(W*s, H*s)`, top-left
`((window_w - W*s)/2, (window_h - H*s)/2)`, color-modulated by opaque
white; the destination rectangle is centered (left margin equals right
margin and top margin equals bottom margin). -/
theorem draw_emits_centered_blit (ra : RenderArea2D) (env : Env) :
    draw ra env
      = [{ x := (env.screen_width - (ra.width : ℚ) * (ra.scale : ℚ)) / 2,
           y := (env.screen_height - (ra.height : ℚ) * (ra.scale : ℚ)) / 2,
           color := WHITE,
           dest_size := some (vec2 ((ra.width : ℚ) * (ra.scale : ℚ))
                                   ((ra.height : ℚ) * (ra.scale : ℚ))) }]
    ∧ ∀ cmd ∈ draw ra env,
        cmd.x = env.screen_width - (cmd.x + (ra.width : ℚ) * (ra.scale : ℚ))
        ∧ cmd.y = env.screen_height - (cmd.y + (ra.height : ℚ) * (ra.scale : ℚ)) := by
  refine ⟨rfl, ?_⟩
  intro cmd hcmd
  simp only [draw, screen_offset, List.mem_singleton] at hcmd
  subst hcmd
  constructor <;> (simp only []; ring)

/-- Claim C5: `mouse_position` returns
`((mx - x_off)/s, (my - y_off)/s)` with the letterbox offsets of the
blit, and the camera state has no effect on the result. -/
theorem mouse_position_formula (ra : RenderArea2D) (env : Env)
    (hs : 0 < ra.scale) :
    mouse_position ra env
      = ((env.mouse_x - (screen_offset ra env).1) / (ra.scale : ℚ),
         (env.mouse_y - (screen_offset ra env).2) / (ra.scale : ℚ))
    ∧ ∀ cam : Camera2D,
        mouse_position { ra with camera := cam } env = mouse_position ra env :=
  ⟨rfl, fun _ => rfl⟩

/-- Claim C5, witness: the formula at a 400x300 render area at scale 2 in
an 800x600 window. -/
theorem mouse_position_formula_witness :
    0 < ra0.scale ∧
    mouse_position ra0 env0
      = ((env0.mouse_x - (screen_offset ra0 env0).1) / (ra0.scale : ℚ),
         (env0.mouse_y - (screen_offset ra0 env0).2) / (ra0.scale : ℚ)) :=
  ⟨by decide, (mouse_position_formula ra0 env0 (by decide)).1⟩

/-- Claim C6: `mouse_position_cam` equals `mouse_position` plus the
offset `(camera.target.x - W/2, camera.target.y - H/2)`, inverting the
camera translation. -/
theorem mouse_position_cam_inverts (ra : RenderArea2D) (env : Env)
    (hs : 0 < ra.scale) :
    mouse_position_cam ra env
      = ((mouse_position ra env).1 + (ra.camera.target.x - (ra.width : ℚ) / 2),
         (mouse_position ra env).2 + (ra.camera.target.y - (ra.height : ℚ) / 2)) :=
  rfl

/-- Claim C6, witness: the relation at a 400x300 render area at scale 2. -/
theorem mouse_position_cam_inverts_witness :
    0 < ra0.scale ∧
    mouse_position_cam ra0 env0
      = ((mouse_position ra0 env0).1 + (ra0.camera.target.x - (ra0.width : ℚ) / 2),
         (mouse_position ra0 env0).2 + (ra0.camera.target.y - (ra0.height : ℚ) / 2)) :=
  ⟨by decide, mouse_position_cam_inverts ra0 env0 (by decide)⟩

/-- Claim C7: `center_camera(x, y)` sets `camera.target` to exactly
`(x + 16, y + 16)` and is idempotent. -/
theorem center_camera_spec (ra : RenderArea2D) (x y : ℚ) :
    (center_camera ra x y).camera.target = vec2 (x + 16) (y + 16)
    ∧ center_camera (center_camera ra x y) x y = center_camera ra x y :=
  ⟨rfl, rfl⟩

/-- Claim C8: `move_camera(dx, dy)` adds `(dx, dy)` to `camera.target`
and modifies nothing else (zoom, rotation, offset, width, height and
scale are untouched); `move_camera(0, 0)` is the identity on the state
(in this exact-rational model, bit-identity of floats is equality). -/
theorem move_camera_spec (ra : RenderArea2D) (dx dy : ℚ) :
    (move_camera ra dx dy).camera.target
        = vec2 (ra.camera.target.x + dx) (ra.camera.target.y + dy)
    ∧ (move_camera ra dx dy).camera.zoom = ra.camera.zoom
    ∧ (move_camera ra dx dy).camera.rotation = ra.camera.rotation
    ∧ (move_camera ra dx dy).camera.offset = ra.camera.offset
    ∧ (move_camera ra dx dy).width = ra.width
    ∧ (move_camera ra dx dy).height = ra.height
    ∧ (move_camera ra dx dy).scale = ra.scale
    ∧ move_camera ra 0 0 = ra := by
  refine ⟨rfl, rfl, rfl, rfl, rfl, rfl, rfl, ?_⟩
  simp [move_camera, Vec2.add, vec2]

/-- Claim C9: construction builds the camera with target `(W/2, H/2)` and
initializes the scale by auto-fit; concretely, `new 400 300` against an
800x600 window gives scale 2, camera target `(200, 150)` and letterbox
offset `(0, 0)`. -/
theorem new_spec (W H : ℕ) (hW : 0 < W) (hH : 0 < H) (env : Env) :
    (new W H env).camera.target = vec2 ((W : ℚ) / 2) ((H : ℚ) / 2)
    ∧ (new W H env).scale = auto_scale (new W H env) env
    ∧ (new 400 300 env0).scale = 2
    ∧ (new 400 300 env0).camera.target = vec2 200 150
    ∧ screen_offset (new 400 300 env0) env0 = (0, 0) := by
  refine ⟨rfl, rfl, ?_, ?_, ?_⟩
  · norm_num [new, set_scale_auto, auto_scale, f32_as_u8, env0,
      show Int.toNat 2 = 2 from rfl]
  · norm_num [new, set_scale_auto, target, vec2, env0]
  · norm_num [new, set_scale_auto, auto_scale, f32_as_u8, screen_offset,
      env0, show Int.toNat 2 = 2 from rfl]

/-- Claim C9, witness: the construct-defaults scenario itself. -/
theorem new_spec_witness :
    0 < 400 ∧ 0 < 300 ∧ (new 400 300 env0).scale = 2 :=
  ⟨by decide, by decide,
   (new_spec 400 300 (by decide) (by decide) env0).2.2.1⟩

/-- Claim C10: at scale 0 the mouse-translation operations still return a
value: each component is an IEEE division by zero yielding a non-finite
result (infinity or NaN), and neither operation changes the render-area
state. -/
theorem mouse_position_zero_scale (ra : RenderArea2D) (env : Env)
    (h : ra.scale = 0) :
    (mouse_positionE ra env).1.isFinite = false
    ∧ (mouse_positionE ra env).2.isFinite = false
    ∧ (mouse_position_camE ra env).1.isFinite = false
    ∧ (mouse_position_camE ra env).2.isFinite = false
    ∧ stepRA ra env Op.mouse_position = ra
    ∧ stepRA ra env Op.mouse_position_cam = ra := by
  have hc : ((ra.scale : ℕ) : ℚ) = 0 := by rw [h]; norm_num
  have h1 : (mouse_positionE ra env).1.isFinite = false := by
    rw [mouse_positionE]
    simp only [hc, F.sub]
    exact div_fin_zero_not_finite _
  have h2 : (mouse_positionE ra env).2.isFinite = false := by
    rw [mouse_positionE]
    simp only [hc, F.sub]
    exact div_fin_zero_not_finite _
  refine ⟨h1, h2, ?_, ?_, rfl, rfl⟩
  · exact add_fin_not_finite _ _ h1
  · exact add_fin_not_finite _ _ h2

/-- Claim C10, witness: a 400x300 render area at scale 0. -/
theorem mouse_position_zero_scale_witness :
    ra00.scale = 0 ∧ (mouse_positionE ra00 env0).1.isFinite = false :=
  ⟨rfl, (mouse_position_zero_scale ra00 env0 rfl).1⟩

end MqRenderArea2D
